import Mathlib

/-!
Shallow embedding of the PrintConnect user/session core.

Sources embedded here:
  - src/unnamed/part_002  : class User (value object with validation)
  - src/unnamed/part_001  : class UserRepository (user set + current-user pointer)
  - src/js/services/AuthService.js : class AuthService (register/login/logout,
    session expiry, refresh)
  - src/unnamed/part_000  : class StorageUtils (backup / clear / restore over
    the browser key-value store)
  - src/js/main.js        : saveContactMessage / logPageAccess list caps

Modelling conventions: timestamps (Date.now()) are naturals in milliseconds
passed explicitly as a `now` argument; the browser key-value store is an
association list of string pairs; JSON decoding is abstracted as an explicit
decode function where a claim needs it; storage writes are assumed to succeed
(the claims under proof all assume no write fails).  JS falsiness of strings
(empty string is falsy) is modelled explicitly at each use site.
-/

/-- User (src/unnamed/part_002): `name`, `email`, plaintext `password`,
`createdAt` as milliseconds since epoch. -/
structure User where
  name : String
  email : String
  password : String
  createdAt : Nat
deriving DecidableEq

namespace User

/-- Character class `[^\s@]` of the email regular expression: any character
that is neither whitespace nor the at sign. -/
def emailChar (c : Char) : Bool := !c.isWhitespace && c != '@'

/-- Core of `isValidEmail` on the character list of the email.  The regular
expression `^[^\s@]+@[^\s@]+\.[^\s@]+$` matches exactly the strings with a
single at sign, a nonempty local part of non-whitespace characters, and a
domain of non-whitespace characters containing a dot that has at least one
character on each side. -/
def emailCharsOk (cs : List Char) : Bool :=
  match cs.splitOn '@' with
  | [lp, dp] =>
      !lp.isEmpty && lp.all emailChar && dp.all emailChar &&
        ((dp.drop 1).dropLast.contains '.')
  | _ => false

/-- isValidEmail (src/unnamed/part_002 line 13): tests the email against
`^[^\s@]+@[^\s@]+\.[^\s@]+$`. -/
def isValidEmail (u : User) : Bool := emailCharsOk u.email.data

/-- isValidPassword (src/unnamed/part_002 line 18): the password is truthy
(nonempty) and at least 6 characters long. -/
def isValidPassword (u : User) : Bool :=
  !(u.password == "") && decide (6 ≤ u.password.length)

/-- Whitespace trimming on a character list, modelling `String.prototype.trim`:
drops leading and trailing whitespace. -/
def trimChars (cs : List Char) : List Char :=
  ((cs.dropWhile Char.isWhitespace).reverse.dropWhile Char.isWhitespace).reverse

/-- Validation outcome of `User.validate`: a validity flag plus the list of
human-readable violations. -/
structure ValidationResult where
  valid : Bool
  errors : List String
deriving DecidableEq

/-- validate (src/unnamed/part_002 lines 22-41): collects the name, email and
password violations in order; valid iff no violation. -/
def validate (u : User) : ValidationResult :=
  let nameErrs := if u.name == "" || (trimChars u.name.data).isEmpty then ["El nombre es requerido"] else []
  let emailErrs := if u.isValidEmail then [] else ["El email no es válido"]
  let passErrs := if u.isValidPassword then [] else ["La contraseña debe tener al menos 6 caracteres"]
  let errors := nameErrs ++ emailErrs ++ passErrs
  ⟨errors.isEmpty, errors⟩

/-- checkPassword (src/unnamed/part_002 line 43): exact string equality with
the stored plaintext password. -/
def checkPassword (u : User) (candidate : String) : Bool :=
  u.password == candidate

end User

/-- In-memory state of UserRepository (src/unnamed/part_001): the user list
and the current-user pointer.  (The persisted copies in the key-value store
are modelled separately where a claim is about the store itself.) -/
structure RepoState where
  users : List User
  currentUser : Option User
deriving DecidableEq

namespace UserRepository

/-- findByEmail (src/unnamed/part_001 line 115): first user whose email is an
exact, case-sensitive match. -/
def findByEmail (email : String) (r : RepoState) : Option User :=
  r.users.find? (fun u => u.email == email)

/-- addUser (src/unnamed/part_001 lines 101-110): refuses (returns the state
unchanged with `false`) when some stored user already has the same email,
else appends and returns `true`. -/
def addUser (u : User) (r : RepoState) : RepoState × Bool :=
  match r.users.find? (fun v => v.email == u.email) with
  | some _ => (r, false)
  | none => ({ r with users := r.users ++ [u] }, true)

/-- countUsers (src/unnamed/part_001 line 129). -/
def countUsers (r : RepoState) : Nat := r.users.length

/-- deleteUser (src/unnamed/part_001 lines 136-144): removes the first user
with the given email when one exists; never clears the current-user pointer. -/
def deleteUser (email : String) (r : RepoState) : RepoState × Bool :=
  if r.users.any (fun u => u.email == email) then
    ({ r with users := r.users.eraseP (fun u => u.email == email) }, true)
  else
    (r, false)

/-- setCurrentUser (src/unnamed/part_001 lines 149-152). -/
def setCurrentUser (u : User) (r : RepoState) : RepoState :=
  { r with currentUser := some u }

/-- getCurrentUser (src/unnamed/part_001 line 157). -/
def getCurrentUser (r : RepoState) : Option User := r.currentUser

/-- clearCurrentUser (src/unnamed/part_001 lines 164-167). -/
def clearCurrentUser (r : RepoState) : RepoState :=
  { r with currentUser := none }

/-- isUserLoggedIn (src/unnamed/part_001 line 172): true iff the current-user
pointer is set. -/
def isUserLoggedIn (r : RepoState) : Bool := r.currentUser.isSome

/-- The `updatedData` argument of updateUser: optional replacement name and
password. -/
structure UpdateData where
  name : Option String
  password : Option String

/-- Field update applied by updateUser (src/unnamed/part_001 lines 198-199):
each field is applied only when present and truthy (nonempty); the email is
never changed. -/
def applyUpdate (d : UpdateData) (u : User) : User :=
  let u1 := match d.name with
    | some n => if n != "" then { u with name := n } else u
    | none => u
  match d.password with
    | some p => if p != "" then { u1 with password := p } else u1
    | none => u1

/-- Mutation of the first list element with the given email, as performed by
the find-then-mutate sequence in updateUser. -/
def updateFirst (email : String) (f : User → User) : List User → List User
  | [] => []
  | u :: us => if u.email == email then f u :: us else u :: updateFirst email f us

/-- updateUser (src/unnamed/part_001 lines 191-209): locates the first user
with the email, applies the allowed field changes in place, and when the
current user has that email re-points the session at the updated user. -/
def updateUser (email : String) (d : UpdateData) (r : RepoState) : RepoState × Bool :=
  match findByEmail email r with
  | none => (r, false)
  | some u =>
      let u' := applyUpdate d u
      let r1 : RepoState := { r with users := updateFirst email (applyUpdate d) r.users }
      let hit := match r1.currentUser with
        | some c => c.email == email
        | none => false
      (if hit then setCurrentUser u' r1 else r1, true)

/-- The argument of importData: the `users` field is `some list` when the
incoming document carries an array of users (JS: `data.users` is truthy and
`Array.isArray(data.users)`), `none` otherwise. -/
structure ImportData where
  users : Option (List User)

/-- importData (src/unnamed/part_001 lines 224-236): replaces the stored user
set wholesale on well-formed input, leaves state untouched otherwise. -/
def importData (d : ImportData) (r : RepoState) : RepoState × Bool :=
  match d.users with
  | some us => ({ r with users := us }, true)
  | none => (r, false)

end UserRepository

/-- State of AuthService (src/js/services/AuthService.js) together with the
repository it owns: the repository state plus the persisted login timestamp
(`printconnect_login_time`; `none` when the key is absent). -/
structure AuthState where
  repo : RepoState
  loginTime : Option Nat
deriving DecidableEq

namespace AuthService

/-- SESSION_DURATION (src/js/services/AuthService.js line 9): 24 hours in
milliseconds. -/
def SESSION_DURATION : Nat := 24 * 60 * 60 * 1000

/-- Result of register: success flag, user-facing message, error list. -/
structure RegisterResult where
  success : Bool
  message : String
  errors : List String
deriving DecidableEq

/-- Result of login: success flag, message, the logged-in user on success. -/
structure LoginResult where
  success : Bool
  message : String
  user : Option User
deriving DecidableEq

/-- Result of logout: success flag and message. -/
structure LogoutResult where
  success : Bool
  message : String
deriving DecidableEq

/-- isSessionExpired (src/js/services/AuthService.js lines 165-180): false
when no login time is stored; else true iff the elapsed time strictly exceeds
SESSION_DURATION.  The JS subtraction of two numbers is modelled in `Int`. -/
def isSessionExpired (now : Nat) (s : AuthState) : Bool :=
  match s.loginTime with
  | none => false
  | some t => decide ((SESSION_DURATION : Int) < (now : Int) - (t : Int))

/-- saveLoginTime (src/js/services/AuthService.js lines 142-148): stamps the
login time with the current time. -/
def saveLoginTime (now : Nat) (s : AuthState) : AuthState :=
  { s with loginTime := some now }

/-- clearLoginTime (src/js/services/AuthService.js lines 153-159). -/
def clearLoginTime (s : AuthState) : AuthState :=
  { s with loginTime := none }

/-- register (src/js/services/AuthService.js lines 16-54): password-confirm
mismatch short-circuits; then the candidate user is validated; then addUser
decides between the duplicate-email failure and success. -/
def register (now : Nat) (name email password passwordConfirm : String)
    (s : AuthState) : RegisterResult × AuthState :=
  if password != passwordConfirm then
    (⟨false, "Las contraseñas no coinciden", ["Las contraseñas no coinciden"]⟩, s)
  else
    let user : User := ⟨name, email, password, now⟩
    let v := user.validate
    if !v.valid then
      (⟨false, "Datos inválidos", v.errors⟩, s)
    else
      let (r', added) := UserRepository.addUser user s.repo
      let s' : AuthState := { s with repo := r' }
      if !added then
        (⟨false, "El correo ya está registrado", ["El correo ya está registrado"]⟩, s')
      else
        (⟨true, "¡Cuenta creada exitosamente!", []⟩, s')

/-- login (src/js/services/AuthService.js lines 60-92): lookup by email, then
password check, both failures returning the same generic message; success
sets the current user and records the login time. -/
def login (now : Nat) (email password : String) (s : AuthState) :
    LoginResult × AuthState :=
  match UserRepository.findByEmail email s.repo with
  | none => (⟨false, "Correo o contraseña incorrectos", none⟩, s)
  | some u =>
      if !u.checkPassword password then
        (⟨false, "Correo o contraseña incorrectos", none⟩, s)
      else
        (⟨true, "¡Bienvenido " ++ u.name ++ "!", some u⟩,
          saveLoginTime now { s with repo := UserRepository.setCurrentUser u s.repo })

/-- logout (src/js/services/AuthService.js lines 97-113): fails (and changes
nothing, the login time included) when no current user is set; else clears
the current user and the login time. -/
def logout (s : AuthState) : LogoutResult × AuthState :=
  if !UserRepository.isUserLoggedIn s.repo then
    (⟨false, "No hay sesión activa"⟩, s)
  else
    (⟨true, "Sesión cerrada exitosamente"⟩,
      clearLoginTime { s with repo := UserRepository.clearCurrentUser s.repo })

/-- getCurrentUser (src/js/services/AuthService.js lines 119-126): on expiry
forces logout and returns no user; else reads the repository pointer. -/
def getCurrentUser (now : Nat) (s : AuthState) : Option User × AuthState :=
  if isSessionExpired now s then
    (none, (logout s).2)
  else
    (UserRepository.getCurrentUser s.repo, s)

/-- isLoggedIn (src/js/services/AuthService.js lines 131-137): on expiry
forces logout and answers false; else asks the repository. -/
def isLoggedIn (now : Nat) (s : AuthState) : Bool × AuthState :=
  if isSessionExpired now s then
    (false, (logout s).2)
  else
    (UserRepository.isUserLoggedIn s.repo, s)

/-- refreshSession (src/js/services/AuthService.js lines 185-189): when the
expiry-aware check answers logged in, re-stamps the login time. -/
def refreshSession (now : Nat) (s : AuthState) : AuthState :=
  let p := isLoggedIn now s
  if p.1 then saveLoginTime now p.2 else p.2

end AuthService

/-- The browser key-value store (localStorage), as an association list of
key/value string pairs in insertion order. -/
abbrev Store := List (String × String)

namespace LocalStorage

/-- getItem: value of the first entry with the given key, if any. -/
def getItem (k : String) (s : Store) : Option String :=
  (s.find? (fun kv => kv.1 == k)).map (fun kv => kv.2)

/-- setItem: overwrites every entry with the key in place when present, else
appends a new entry. -/
def setItem (k v : String) (s : Store) : Store :=
  if s.any (fun kv => kv.1 == k) then
    s.map (fun kv => if kv.1 == k then (k, v) else kv)
  else
    s ++ [(k, v)]

/-- removeItem: removes every entry with the key. -/
def removeItem (k : String) (s : Store) : Store :=
  s.filter (fun kv => kv.1 != k)

/-- The keys of the store, in order. -/
def keysOf (s : Store) : List String := s.map (fun kv => kv.1)

/-- Well-formedness of a real browser store: no key occurs twice. -/
abbrev uniqueKeys (s : Store) : Prop := (keysOf s).Nodup

end LocalStorage

namespace StorageUtils

/-- The application tag prefixed to every PrintConnect key. -/
def pcTag : String := "printconnect_"

/-- Test of `key.startsWith('printconnect_')` on the character lists. -/
def hasTag (k : String) : Bool := pcTag.data.isPrefixOf k.data

/-- getPrintConnectKeys (src/unnamed/part_000 lines 43-52): every key of the
store carrying the application tag, in store order. -/
def getPrintConnectKeys (s : Store) : List String :=
  (LocalStorage.keysOf s).filter hasTag

/-- clearAllPrintConnectData (src/unnamed/part_000 lines 58-64): removes each
application-tagged key in turn. -/
def clearAllPrintConnectData (s : Store) : Store :=
  (getPrintConnectKeys s).foldl (fun st k => LocalStorage.removeItem k st) s

/-- Backup document (src/unnamed/part_000 lines 70-87): version, timestamp,
and the snapshot of every application-tagged key/value pair. -/
structure Backup where
  version : String
  timestamp : String
  data : List (String × String)

/-- createBackup (src/unnamed/part_000 lines 70-87): snapshots every
application-tagged key with its stored value (keys whose read fails are
skipped, which on an association list means a key with no entry). -/
def createBackup (ts : String) (s : Store) : Backup :=
  ⟨"1.0", ts,
    (getPrintConnectKeys s).filterMap
      (fun k => (LocalStorage.getItem k s).map (fun v => (k, v)))⟩

/-- restoreBackup (src/unnamed/part_000 lines 92-116): writes every key/value
pair of the backup data back into the store, in order.  Writes are assumed to
succeed, so only the resulting store is modelled. -/
def restoreBackup (b : Backup) (s : Store) : Store :=
  b.data.foldl (fun st kv => LocalStorage.setItem kv.1 kv.2 st) s

end StorageUtils

namespace UserRepository

/-- Storage key of the serialized user list (src/unnamed/part_001 line 9). -/
def USERS_KEY : String := "printconnect_users"

/-- Storage key of the current-user snapshot (src/unnamed/part_001 line 10). -/
def CURRENT_USER_KEY : String := "printconnect_current_user"

/-- Storage key of the opaque session token (src/unnamed/part_001 line 11). -/
def SESSION_TOKEN_KEY : String := "printconnect_session"

/-- loadCurrentUser (src/unnamed/part_001 lines 57-73): reads the
current-user snapshot and the session token; when either is absent or falsy
(the empty string) the result is no user; else the snapshot is decoded, a
decode failure (the catch branch) yielding no user.  `decode` abstracts
`JSON.parse` composed with `User.fromJSON`, with `none` standing for a thrown
parse error. -/
def loadCurrentUser (decode : String → Option User) (s : Store) : Option User :=
  match LocalStorage.getItem CURRENT_USER_KEY s, LocalStorage.getItem SESSION_TOKEN_KEY s with
  | some ud, some tok => if ud == "" || tok == "" then none else decode ud
  | _, _ => none

/-- loadUsers (src/unnamed/part_001 lines 23-37): reads the serialized user
list; absent or falsy data yields the empty list.  `decode` abstracts the
`JSON.parse` and `User.fromJSON` mapping, with decode failures already folded
into its result (the catch branch returns the empty list). -/
def loadUsers (decode : String → List User) (s : Store) : List User :=
  match LocalStorage.getItem USERS_KEY s with
  | none => []
  | some str => if str == "" then [] else decode str

/-- findByEmail as observed through the store: the lookup a freshly
constructed repository would perform after loading the persisted user list. -/
def findByEmailStore (decode : String → List User) (email : String) (s : Store) : Option User :=
  (loadUsers decode s).find? (fun u => u.email == email)

end UserRepository

namespace Main

/-- saveContactMessage (src/js/main.js lines 299-318), list discipline:
pushes the new message record and drops the oldest entry when the list
exceeds 50.  The record content (form data, timestamp, id) does not influence
the discipline, so the entry type is a parameter. -/
def saveContactMessage {α : Type} (messages : List α) (m : α) : List α :=
  let ms := messages ++ [m]
  if ms.length > 50 then ms.drop 1 else ms

/-- logPageAccess (src/js/main.js lines 320-340), list discipline: pushes the
new log record and drops the oldest entry when the list exceeds 100. -/
def logPageAccess {α : Type} (logs : List α) (entry : α) : List α :=
  let ls := logs ++ [entry]
  if ls.length > 100 then ls.drop 1 else ls

end Main

/-- Pairwise-distinct emails across a stored user list. -/
abbrev emailsNodup (us : List User) : Prop := (us.map User.email).Nodup

/-! ## Theorems -/

/-- C1: AuthService.isSessionExpired returns true if and only if a stored
loginTime exists and now - loginTime strictly exceeds SESSION_DURATION
(24 hours in milliseconds); whenever no loginTime is stored it returns
false. -/
theorem isSessionExpired_characterization (now : Nat) (s : AuthState) :
    (AuthService.isSessionExpired now s = true ↔
      ∃ t, s.loginTime = some t ∧
        (AuthService.SESSION_DURATION : Int) < (now : Int) - (t : Int)) ∧
    (s.loginTime = none → AuthService.isSessionExpired now s = false) := by
  unfold AuthService.isSessionExpired
  cases h : s.loginTime with
  | none => simp
  | some t => simp [h]

/-- Concrete session state used to witness the expiry claims: one registered
user who is the current user, login recorded at time 0. -/
def expiredWitnessState : AuthState :=
  ⟨⟨[⟨"Ana", "a@x.com", "secret1", 0⟩], some ⟨"Ana", "a@x.com", "secret1", 0⟩⟩, some 0⟩

/-- C2: in every expired state, getCurrentUser returns none and isLoggedIn
returns false, each first performing the logout side effect, so that the
repository current-user pointer is cleared afterwards. -/
theorem expired_read_forces_logout (now t : Nat) (s : AuthState)
    (h1 : s.loginTime = some t)
    (h2 : (AuthService.SESSION_DURATION : Int) < (now : Int) - (t : Int)) :
    (AuthService.getCurrentUser now s).1 = none ∧
    (AuthService.getCurrentUser now s).2 = (AuthService.logout s).2 ∧
    (AuthService.getCurrentUser now s).2.repo.currentUser = none ∧
    (AuthService.isLoggedIn now s).1 = false ∧
    (AuthService.isLoggedIn now s).2 = (AuthService.logout s).2 ∧
    (AuthService.isLoggedIn now s).2.repo.currentUser = none := by
  have hexp : AuthService.isSessionExpired now s = true := by
    unfold AuthService.isSessionExpired
    rw [h1]
    simpa using h2
  have hcur : (AuthService.logout s).2.repo.currentUser = none := by
    unfold AuthService.logout
    cases hc : s.repo.currentUser with
    | none =>
        simp [UserRepository.isUserLoggedIn, hc]
    | some u =>
        simp [UserRepository.isUserLoggedIn, hc, UserRepository.clearCurrentUser,
          AuthService.clearLoginTime]
  refine ⟨?_, ?_, ?_, ?_, ?_, ?_⟩ <;>
    simp [AuthService.getCurrentUser, AuthService.isLoggedIn, hexp, hcur]

/-- Witness for C2 at a concrete expired state. -/
theorem expired_read_forces_logout_witness :
    (AuthService.getCurrentUser 86400001 expiredWitnessState).1 = none ∧
    (AuthService.getCurrentUser 86400001 expiredWitnessState).2.repo.currentUser = none :=
  ⟨(expired_read_forces_logout 86400001 0 expiredWitnessState rfl (by decide)).1,
   (expired_read_forces_logout 86400001 0 expiredWitnessState rfl (by decide)).2.2.1⟩

/-- C5: login with a registered email but a wrong password and login with an
unregistered email both fail and return the identical generic result,
revealing nothing about whether the email is registered. -/
theorem login_generic_failure (now : Nat) (s : AuthState) (e w e2 x : String) (u : User)
    (hfound : UserRepository.findByEmail e s.repo = some u)
    (hw : w ≠ u.password)
    (hmiss : UserRepository.findByEmail e2 s.repo = none) :
    (AuthService.login now e w s).1.success = false ∧
    (AuthService.login now e2 x s).1.success = false ∧
    (AuthService.login now e w s).1 = (AuthService.login now e2 x s).1 ∧
    (AuthService.login now e w s).1.message = "Correo o contraseña incorrectos" := by
  have hpw : u.checkPassword w = false := by
    unfold User.checkPassword
    rw [beq_eq_false_iff_ne]
    exact fun hh => hw hh.symm
  unfold AuthService.login
  rw [hfound, hmiss]
  simp [hpw]

/-- Witness for C5: a one-user repository, wrong password versus unknown
email. -/
theorem login_generic_failure_witness :
    (AuthService.login 5 "a@x.com" "wrongpw" expiredWitnessState).1 =
      (AuthService.login 5 "z@x.com" "whatever" expiredWitnessState).1 :=
  (login_generic_failure 5 expiredWitnessState "a@x.com" "wrongpw" "z@x.com" "whatever"
    ⟨"Ana", "a@x.com", "secret1", 0⟩ (by decide) (by decide) (by decide)).2.2.1

/-- C6: register with mismatched password confirmation returns the mismatch
error alone, regardless of the validity of the other fields, and leaves the
state unchanged. -/
theorem register_mismatch_short_circuits (now : Nat) (s : AuthState) (n e p pc : String)
    (h : p ≠ pc) :
    (AuthService.register now n e p pc s).1 =
      ⟨false, "Las contraseñas no coinciden", ["Las contraseñas no coinciden"]⟩ ∧
    (AuthService.register now n e p pc s).2 = s := by
  unfold AuthService.register
  simp [h]

/-- Witness for C6: mismatched confirmation together with otherwise invalid
fields still yields only the mismatch error. -/
theorem register_mismatch_short_circuits_witness :
    (AuthService.register 0 "" "not-an-email" "a" "b" ⟨⟨[], none⟩, none⟩).1 =
      ⟨false, "Las contraseñas no coinciden", ["Las contraseñas no coinciden"]⟩ :=
  (register_mismatch_short_circuits 0 ⟨⟨[], none⟩, none⟩ "" "not-an-email" "a" "b"
    (by decide)).1

/-- C7: registering a second valid user under an email already present fails
with the duplicate-email error and leaves the stored user set, and hence the
user count, unchanged. -/
theorem register_duplicate_email (now : Nat) (s : AuthState) (n e p : String) (u : User)
    (hdup : UserRepository.findByEmail e s.repo = some u)
    (hvalid : (User.validate ⟨n, e, p, now⟩).valid = true) :
    (AuthService.register now n e p p s).1.success = false ∧
    (AuthService.register now n e p p s).1.errors = ["El correo ya está registrado"] ∧
    (AuthService.register now n e p p s).2 = s ∧
    UserRepository.countUsers (AuthService.register now n e p p s).2.repo =
      UserRepository.countUsers s.repo := by
  have hadd : UserRepository.addUser ⟨n, e, p, now⟩ s.repo = (s.repo, false) := by
    unfold UserRepository.addUser
    unfold UserRepository.findByEmail at hdup
    rw [show (⟨n, e, p, now⟩ : User).email = e from rfl, hdup]
  unfold AuthService.register
  simp [hvalid, hadd]

/-- Witness for C7: a valid second registration under an already-registered
email. -/
theorem register_duplicate_email_witness :
    (AuthService.register 7 "Bob" "a@x.com" "secret2" "secret2" expiredWitnessState).1.errors =
      ["El correo ya está registrado"] :=
  (register_duplicate_email 7 expiredWitnessState "Bob" "a@x.com" "secret2"
    ⟨"Ana", "a@x.com", "secret1", 0⟩ (by decide) (by decide)).2.1

/-- Session state for the C8 counterexample: logged in, login recorded at
time 1000, observed at the very same millisecond. -/
def refreshSameMsState : AuthState :=
  ⟨⟨[⟨"Eva", "e@x.com", "secret1", 0⟩], some ⟨"Eva", "e@x.com", "secret1", 0⟩⟩, some 1000⟩

/-- C8 counterexample: a logged-in, non-expired state in which refreshSession
re-stamps loginTime with the very same value, so the stored loginTime does
not move strictly forward. -/
theorem refreshSession_not_strictly_forward :
    (AuthService.isLoggedIn 1000 refreshSameMsState).1 = true ∧
    AuthService.isSessionExpired 1000 refreshSameMsState = false ∧
    refreshSameMsState.loginTime = some 1000 ∧
    (AuthService.refreshSession 1000 refreshSameMsState).loginTime = some 1000 := by
  decide

/-- C8 (amended): in a logged-in, non-expired state refreshSession re-stamps
loginTime to the current time (which moves it strictly forward exactly when
now is strictly later than the stored loginTime); in any state with no
current user set it is a no-op, leaving the entire state unchanged. -/
theorem refreshSession_behaviour (now : Nat) (s : AuthState) :
    (∀ u, s.repo.currentUser = some u →
      AuthService.isSessionExpired now s = false →
      AuthService.refreshSession now s = { s with loginTime := some now }) ∧
    (s.repo.currentUser = none → AuthService.refreshSession now s = s) := by
  constructor
  · intro u hu hexp
    unfold AuthService.refreshSession AuthService.isLoggedIn
    rw [hexp]
    simp [UserRepository.isUserLoggedIn, hu, AuthService.saveLoginTime]
  · intro hu
    unfold AuthService.refreshSession AuthService.isLoggedIn
    cases hexp : AuthService.isSessionExpired now s with
    | false => simp [UserRepository.isUserLoggedIn, hu]
    | true => simp [AuthService.logout, UserRepository.isUserLoggedIn, hu]

/-- One saveContactMessage step keeps the contact history within its cap. -/
theorem saveContactMessage_length_le {α : Type} (xs : List α) (x : α)
    (h : xs.length ≤ 50) : (Main.saveContactMessage xs x).length ≤ 50 := by
  unfold Main.saveContactMessage
  by_cases hc : (xs ++ [x]).length > 50
  · rw [if_pos hc]
    simp
    omega
  · rw [if_neg hc]
    simp at hc ⊢
    omega

/-- One logPageAccess step keeps the page log within its cap. -/
theorem logPageAccess_length_le {α : Type} (xs : List α) (x : α)
    (h : xs.length ≤ 100) : (Main.logPageAccess xs x).length ≤ 100 := by
  unfold Main.logPageAccess
  by_cases hc : (xs ++ [x]).length > 100
  · rw [if_pos hc]
    simp
    omega
  · rw [if_neg hc]
    simp at hc ⊢
    omega

/-- A fold of cap-respecting steps keeps a list within the cap. -/
theorem foldl_length_le {α : Type} (f : List α → α → List α) (cap : Nat)
    (hf : ∀ xs x, xs.length ≤ cap → (f xs x).length ≤ cap) (ops : List α) :
    ∀ init : List α, init.length ≤ cap → (ops.foldl f init).length ≤ cap := by
  induction ops with
  | nil => intro init h; simpa using h
  | cons o os ih => intro init h; exact ih _ (hf _ _ h)

/-- Dropping the head of an append with a nonempty front list. -/
theorem drop_one_append {α : Type} (xs ys : List α) (h : xs ≠ []) :
    (xs ++ ys).drop 1 = xs.drop 1 ++ ys := by
  cases xs with
  | nil => exact absurd rfl h
  | cons a l => simp

/-- C9: starting from an empty store, the contact-message history never
exceeds 50 entries and the page-access log never exceeds 100 entries, and an
insertion that would exceed the cap evicts exactly the oldest (first) entry. -/
theorem contact_page_caps (α : Type) (ops : List α) (xs : List α) (x : α) :
    ((ops.foldl Main.saveContactMessage ([] : List α)).length ≤ 50) ∧
    ((ops.foldl Main.logPageAccess ([] : List α)).length ≤ 100) ∧
    (xs.length = 50 → Main.saveContactMessage xs x = xs.drop 1 ++ [x]) ∧
    (xs.length = 100 → Main.logPageAccess xs x = xs.drop 1 ++ [x]) := by
  refine ⟨?_, ?_, ?_, ?_⟩
  · exact foldl_length_le _ 50 (fun xs x h => saveContactMessage_length_le xs x h) ops [] (by simp)
  · exact foldl_length_le _ 100 (fun xs x h => logPageAccess_length_le xs x h) ops [] (by simp)
  · intro h50
    have hne : xs ≠ [] := by intro hh; rw [hh] at h50; simp at h50
    have hgt : (xs ++ [x]).length > 50 := by simp [h50]
    unfold Main.saveContactMessage
    rw [if_pos hgt]
    exact drop_one_append xs [x] hne
  · intro h100
    have hne : xs ≠ [] := by intro hh; rw [hh] at h100; simp at h100
    have hgt : (xs ++ [x]).length > 100 := by simp [h100]
    unfold Main.logPageAccess
    rw [if_pos hgt]
    exact drop_one_append xs [x] hne

/-- C10: a freshly constructed repository restores a non-null current user
only when both the current-user snapshot key and the session-token key are
present (and truthy) and the snapshot decodes; when either key is absent,
loadCurrentUser returns none, so the repository starts logged out. -/
theorem loadCurrentUser_requires_both_keys (decode : String → Option User) (s : Store) :
    (∀ u, UserRepository.loadCurrentUser decode s = some u →
      ∃ str tok, LocalStorage.getItem UserRepository.CURRENT_USER_KEY s = some str ∧
        LocalStorage.getItem UserRepository.SESSION_TOKEN_KEY s = some tok ∧
        decode str = some u) ∧
    (LocalStorage.getItem UserRepository.CURRENT_USER_KEY s = none ∨
        LocalStorage.getItem UserRepository.SESSION_TOKEN_KEY s = none →
      UserRepository.loadCurrentUser decode s = none) := by
  unfold UserRepository.loadCurrentUser
  cases h1 : LocalStorage.getItem UserRepository.CURRENT_USER_KEY s with
  | none => simp
  | some ud =>
      cases h2 : LocalStorage.getItem UserRepository.SESSION_TOKEN_KEY s with
      | none => simp
      | some tok =>
          constructor
          · intro u hu
            by_cases he : (ud == "" || tok == "") = true
            · simp [he] at hu
            · simp [he] at hu
              exact ⟨ud, tok, rfl, rfl, hu⟩
          · rintro (h | h) <;> simp_all

/-- C3 counterexample: from a state whose stored emails are pairwise distinct
(the empty repository), importData with a payload repeating one email yields
a stored user set with a duplicated email, so the claimed invariant is not
preserved by every public repository operation. -/
theorem importData_breaks_email_uniqueness :
    emailsNodup (RepoState.mk [] none).users ∧
    ¬ emailsNodup
        ((UserRepository.importData
            ⟨some [⟨"Ana", "a@x.com", "secret1", 0⟩, ⟨"Bea", "a@x.com", "secret2", 1⟩]⟩
            ⟨[], none⟩).1.users) := by
  constructor
  · simp [emailsNodup]
  · decide

/-- applyUpdate never changes the email field. -/
theorem applyUpdate_email (d : UserRepository.UpdateData) (u : User) :
    (UserRepository.applyUpdate d u).email = u.email := by
  unfold UserRepository.applyUpdate
  cases d.name <;> cases d.password <;> dsimp <;> split <;> simp <;> split <;> simp

/-- updateFirst with an email-preserving mutation keeps the stored email list
unchanged. -/
theorem updateFirst_map_email (email : String) (f : User → User)
    (hf : ∀ u, (f u).email = u.email) (us : List User) :
    (UserRepository.updateFirst email f us).map User.email = us.map User.email := by
  induction us with
  | nil => rfl
  | cons u us ih =>
      unfold UserRepository.updateFirst
      by_cases hc : (u.email == email) = true
      · simp [hc, hf, ih]
      · simp [hc, ih]

/-- C3 (amended): pairwise-distinct stored emails are preserved by addUser,
updateUser and deleteUser unconditionally, and by importData whenever the
imported user list itself carries pairwise-distinct emails; importData with a
duplicated email in its payload installs the duplicate verbatim. -/
theorem repo_ops_preserve_email_uniqueness (r : RepoState) (h : emailsNodup r.users) :
    (∀ u, emailsNodup ((UserRepository.addUser u r).1.users)) ∧
    (∀ e d, emailsNodup ((UserRepository.updateUser e d r).1.users)) ∧
    (∀ e, emailsNodup ((UserRepository.deleteUser e r).1.users)) ∧
    (∀ d : UserRepository.ImportData,
      (∀ us, d.users = some us → emailsNodup us) →
      emailsNodup ((UserRepository.importData d r).1.users)) := by
  refine ⟨?_, ?_, ?_, ?_⟩
  · intro u
    unfold UserRepository.addUser
    cases hf : r.users.find? (fun v => v.email == u.email) with
    | some v => exact h
    | none =>
        have hnotin : u.email ∉ r.users.map User.email := by
          intro hmem
          rcases List.mem_map.mp hmem with ⟨v, hv, hve⟩
          have := List.find?_eq_none.mp hf v hv
          simp [hve] at this
        show ((r.users ++ [u]).map User.email).Nodup
        rw [List.map_append, List.nodup_append]
        exact ⟨h, by simp, by
          intro a ha hb
          simp at hb
          rw [hb] at ha
          exact hnotin ha⟩
  · intro e d
    unfold UserRepository.updateUser
    cases hf : UserRepository.findByEmail e r with
    | none => exact h
    | some u =>
        have hmap := updateFirst_map_email e (UserRepository.applyUpdate d)
          (fun v => applyUpdate_email d v) r.users
        by_cases hit : (match r.currentUser with
            | some c => c.email == e
            | none => false) = true
        · simp only [hit, if_pos, UserRepository.setCurrentUser]
          show emailsNodup (UserRepository.updateFirst e (UserRepository.applyUpdate d) r.users)
          unfold emailsNodup
          rw [hmap]
          exact h
        · simp only [hit, if_neg]
          show emailsNodup (UserRepository.updateFirst e (UserRepository.applyUpdate d) r.users)
          unfold emailsNodup
          rw [hmap]
          exact h
  · intro e
    unfold UserRepository.deleteUser
    by_cases ha : r.users.any (fun u => u.email == e)
    · rw [if_pos ha]
      exact ((List.eraseP_sublist _).map User.email).nodup h
    · rw [if_neg ha]
      exact h
  · intro d hd
    unfold UserRepository.importData
    cases hu : d.users with
    | none => exact h
    | some us => exact hd us hu

/-- Witness for C3 (amended): uniqueness preserved when adding a user to the
empty repository. -/
theorem repo_ops_preserve_email_uniqueness_witness :
    emailsNodup ((UserRepository.addUser ⟨"Ana", "a@x.com", "secret1", 0⟩ ⟨[], none⟩).1.users) :=
  (repo_ops_preserve_email_uniqueness ⟨[], none⟩ (by simp [emailsNodup])).1
    ⟨"Ana", "a@x.com", "secret1", 0⟩

/-- Lookup distributes over store concatenation. -/
theorem getItem_append (k : String) (s1 s2 : Store) :
    LocalStorage.getItem k (s1 ++ s2) =
      (LocalStorage.getItem k s1).or (LocalStorage.getItem k s2) := by
  unfold LocalStorage.getItem
  rw [List.find?_append]
  cases s1.find? (fun kv => kv.1 == k) <;> simp

/-- find? is unchanged by a filter whose predicate is implied by the search
predicate. -/
theorem find?_filter_of_imp (p q : String × String → Bool) (l : Store)
    (h : ∀ kv, p kv = true → q kv = true) :
    (l.filter q).find? p = l.find? p := by
  induction l with
  | nil => rfl
  | cons kv l ih =>
      cases hq : q kv with
      | false =>
          have hp : p kv = false := by
            cases hpc : p kv
            · rfl
            · exact absurd (h kv hpc) (by simp [hq])
          simp [List.filter_cons, hq, List.find?_cons, hp, ih]
      | true =>
          cases hp : p kv with
          | false => simp [List.filter_cons, hq, List.find?_cons, hp, ih]
          | true => simp [List.filter_cons, hq, List.find?_cons, hp]

/-- Lookup after removeItem: the removed key reads as absent, others are
untouched. -/
theorem getItem_removeItem (k k2 : String) (s : Store) :
    LocalStorage.getItem k (LocalStorage.removeItem k2 s) =
      if k = k2 then none else LocalStorage.getItem k s := by
  by_cases he : k = k2
  · subst he
    rw [if_pos rfl]
    have hnone : (List.filter (fun kv => kv.1 != k) s).find? (fun kv => kv.1 == k) = none := by
      rw [List.find?_eq_none]
      intro kv hkv
      have h2 := (List.mem_filter.mp hkv).2
      simp at h2 ⊢
      exact h2
    simp [LocalStorage.getItem, LocalStorage.removeItem, hnone]
  · rw [if_neg he]
    unfold LocalStorage.getItem LocalStorage.removeItem
    rw [find?_filter_of_imp]
    intro kv hp
    simp at hp ⊢
    rw [hp]
    exact he

/-- Lookup after a fold of removeItem calls. -/
theorem getItem_foldl_remove (L : List String) (k : String) (s : Store) :
    LocalStorage.getItem k (L.foldl (fun st k2 => LocalStorage.removeItem k2 st) s) =
      if k ∈ L then none else LocalStorage.getItem k s := by
  induction L generalizing s with
  | nil => simp
  | cons a L ih =>
      rw [List.foldl_cons, ih]
      by_cases hL : k ∈ L
      · simp [hL]
      · rw [if_neg hL, getItem_removeItem]
        by_cases ha : k = a
        · simp [ha]
        · simp [ha, hL]

/-- Lookup after clearAllPrintConnectData: exactly the application-tagged
keys of the store read as absent. -/
theorem getItem_clearAllPrintConnectData (s : Store) (k : String) :
    LocalStorage.getItem k (StorageUtils.clearAllPrintConnectData s) =
      if k ∈ StorageUtils.getPrintConnectKeys s then none else LocalStorage.getItem k s :=
  getItem_foldl_remove _ k s

/-- Lookup on a cons cell. -/
theorem getItem_cons (k : String) (kv : String × String) (s : Store) :
    LocalStorage.getItem k (kv :: s) =
      if kv.1 == k then some kv.2 else LocalStorage.getItem k s := by
  unfold LocalStorage.getItem
  rw [List.find?_cons]
  cases hc : kv.1 == k
  · simp
  · simp

/-- Lookup after the in-place overwrite of setItem at a different key. -/
theorem getItem_map_set_ne (k k2 v : String) (s : Store) (h : k ≠ k2) :
    LocalStorage.getItem k (s.map (fun kv => if kv.1 == k2 then (k2, v) else kv)) =
      LocalStorage.getItem k s := by
  induction s with
  | nil => rfl
  | cons kv s ih =>
      rw [List.map_cons, getItem_cons, getItem_cons]
      by_cases hk2 : (kv.1 == k2) = true
      · have hk2e : kv.1 = k2 := by simpa using hk2
        have hkk : ¬((kv.1 == k) = true) := by
          rw [hk2e]
          simp
          exact fun hh => h hh.symm
        have houter : ¬((((k2, v) : String × String).1 == k) = true) := by
          simp
          exact fun hh => h hh.symm
        rw [if_pos hk2, if_neg houter, if_neg hkk]
        exact ih
      · rw [if_neg hk2]
        by_cases hkk : (kv.1 == k) = true
        · rw [if_pos hkk, if_pos hkk]
        · rw [if_neg hkk, if_neg hkk]
          exact ih

/-- Lookup after the in-place overwrite of setItem at its own key, when the
key is present. -/
theorem getItem_map_set_self (k v : String) (s : Store)
    (h : s.any (fun kv => kv.1 == k) = true) :
    LocalStorage.getItem k (s.map (fun kv => if kv.1 == k then (k, v) else kv)) = some v := by
  induction s with
  | nil => simp at h
  | cons kv s ih =>
      rw [List.map_cons, getItem_cons]
      by_cases hk : (kv.1 == k) = true
      · have houter : ((((k, v) : String × String).1 == k) = true) := by simp
        rw [if_pos hk, if_pos houter]
      · rw [if_neg hk, if_neg hk]
        apply ih
        simp only [List.any_cons, Bool.or_eq_true] at h
        rcases h with h1 | h2
        · exact absurd h1 hk
        · exact h2

/-- Lookup after setItem: the written key reads the new value, every other
key is untouched. -/
theorem getItem_setItem (k k2 v : String) (s : Store) :
    LocalStorage.getItem k (LocalStorage.setItem k2 v s) =
      if k = k2 then some v else LocalStorage.getItem k s := by
  unfold LocalStorage.setItem
  by_cases hany : s.any (fun kv => kv.1 == k2) = true
  · rw [if_pos hany]
    by_cases he : k = k2
    · subst he
      rw [if_pos rfl]
      exact getItem_map_set_self k v s hany
    · rw [if_neg he]
      exact getItem_map_set_ne k k2 v s he
  · rw [if_neg hany, getItem_append]
    by_cases he : k = k2
    · subst he
      have hnone : LocalStorage.getItem k s = none := by
        unfold LocalStorage.getItem
        have hf : s.find? (fun kv => kv.1 == k) = none := by
          rw [List.find?_eq_none]
          intro kv hkv hp
          exact hany (List.any_eq_true.mpr ⟨kv, hkv, hp⟩)
        rw [hf]
        rfl
      rw [if_pos rfl, hnone, getItem_cons]
      simp [LocalStorage.getItem]
    · have hsingle : LocalStorage.getItem k [(k2, v)] = none := by
        rw [getItem_cons]
        have hne : ¬((((k2, v) : String × String).1 == k) = true) := by
          simp
          exact fun hh => he hh.symm
        rw [if_neg hne]
        rfl
      rw [if_neg he, hsingle]
      cases LocalStorage.getItem k s <;> rfl

/-- Lookup after a fold of setItem calls whose keys are pairwise distinct:
the first matching binding wins, absent keys fall through to the underlying
store. -/
theorem getItem_foldl_set (data : Store) (st : Store) (k : String)
    (hnd : (data.map Prod.fst).Nodup) :
    LocalStorage.getItem k
        (data.foldl (fun st kv => LocalStorage.setItem kv.1 kv.2 st) st) =
      match data.find? (fun kv => kv.1 == k) with
      | some kv => some kv.2
      | none => LocalStorage.getItem k st := by
  induction data generalizing st with
  | nil => rfl
  | cons kv0 data ih =>
      rw [List.map_cons] at hnd
      have hparts := List.nodup_cons.mp hnd
      rw [List.foldl_cons, ih _ hparts.2]
      by_cases he : (kv0.1 == k) = true
      · have hk : kv0.1 = k := by simpa using he
        have hnotin : k ∉ data.map Prod.fst := hk ▸ hparts.1
        have hfind : data.find? (fun kv => kv.1 == k) = none := by
          rw [List.find?_eq_none]
          intro x hx hpx
          have hxk : x.1 = k := by simpa using hpx
          exact hnotin (hxk ▸ List.mem_map_of_mem Prod.fst hx)
        simp [hfind, List.find?_cons, he, getItem_setItem, hk]
      · have hne : ¬(k = kv0.1) := fun hh => he (by simp [hh])
        cases hf : data.find? (fun kv => kv.1 == k) with
        | some kv => simp [List.find?_cons, he, hf]
        | none => simp [List.find?_cons, he, hf, getItem_setItem, hne]

/-- A key that is enumerated by the store has a readable value. -/
theorem getItem_isSome_of_mem_keys (k : String) (s : Store)
    (h : k ∈ LocalStorage.keysOf s) : (LocalStorage.getItem k s).isSome := by
  unfold LocalStorage.keysOf at h
  rcases List.mem_map.mp h with ⟨kv, hkv, hk⟩
  have hfs : (s.find? (fun kv => kv.1 == k)).isSome :=
    List.find?_isSome.mpr ⟨kv, hkv, by simp [hk]⟩
  unfold LocalStorage.getItem
  cases hf : s.find? (fun kv => kv.1 == k) with
  | none => rw [hf] at hfs; simp at hfs
  | some kv2 => rfl

/-- A key with a readable value is enumerated by the store. -/
theorem mem_keys_of_getItem_some (k v : String) (s : Store)
    (h : LocalStorage.getItem k s = some v) : k ∈ LocalStorage.keysOf s := by
  unfold LocalStorage.getItem at h
  cases hf : s.find? (fun kv => kv.1 == k) with
  | none => rw [hf] at h; simp at h
  | some kv =>
      have hm := List.mem_of_find?_eq_some hf
      have hp : kv.1 = k := by simpa using List.find?_some hf
      exact hp ▸ List.mem_map_of_mem (fun kv => kv.1) hm

/-- Membership in the application-tagged key enumeration. -/
theorem mem_getPrintConnectKeys (s : Store) (k : String) :
    k ∈ StorageUtils.getPrintConnectKeys s ↔
      k ∈ LocalStorage.keysOf s ∧ StorageUtils.hasTag k = true := by
  unfold StorageUtils.getPrintConnectKeys
  rw [List.mem_filter]

/-- The backup snapshot carries exactly the application-tagged keys, in
order. -/
theorem createBackup_keys (ts : String) (s : Store) :
    (StorageUtils.createBackup ts s).data.map Prod.fst =
      StorageUtils.getPrintConnectKeys s := by
  unfold StorageUtils.createBackup
  have haux : ∀ L : List String, (∀ a ∈ L, a ∈ LocalStorage.keysOf s) →
      (L.filterMap (fun k2 => (LocalStorage.getItem k2 s).map (fun v => (k2, v)))).map
        Prod.fst = L := by
    intro L
    induction L with
    | nil => intro _; rfl
    | cons a L ih =>
        intro hL
        have ha := getItem_isSome_of_mem_keys a s (hL a (by simp))
        cases hv : LocalStorage.getItem a s with
        | none => rw [hv] at ha; simp at ha
        | some v =>
            rw [List.filterMap_cons, hv]
            simp only [Option.map_some']
            rw [List.map_cons]
            rw [ih (fun b hb => hL b (List.mem_cons_of_mem a hb))]
  exact haux _ (fun a ha => ((mem_getPrintConnectKeys s a).mp ha).1)

/-- Membership in the backup snapshot. -/
theorem mem_createBackup_data (ts : String) (s : Store) (k v : String) :
    (k, v) ∈ (StorageUtils.createBackup ts s).data ↔
      k ∈ StorageUtils.getPrintConnectKeys s ∧ LocalStorage.getItem k s = some v := by
  unfold StorageUtils.createBackup
  rw [List.mem_filterMap]
  constructor
  · rintro ⟨a, ha, hfa⟩
    cases hv : LocalStorage.getItem a s with
    | none => rw [hv] at hfa; simp at hfa
    | some w =>
        rw [hv] at hfa
        simp only [Option.map_some', Option.some.injEq, Prod.mk.injEq] at hfa
        rcases hfa with ⟨h1, h2⟩
        subst h1
        subst h2
        exact ⟨ha, hv⟩
  · rintro ⟨hk, hv⟩
    exact ⟨k, hk, by rw [hv]; rfl⟩

/-- C4: backup, clear, restore is a round-trip: for every well-formed store,
restoring the backup over the cleared store reads back exactly the original
value at every key (application-tagged keys are reinstated verbatim, others
were never touched); in particular a user registered before the round-trip is
still found by findByEmail on the reloaded user list afterwards. -/
theorem backup_clear_restore_roundtrip (ts : String) (s : Store)
    (h : LocalStorage.uniqueKeys s) :
    (∀ k, LocalStorage.getItem k
        (StorageUtils.restoreBackup (StorageUtils.createBackup ts s)
          (StorageUtils.clearAllPrintConnectData s)) = LocalStorage.getItem k s) ∧
    (∀ (decode : String → List User) (e : String),
      UserRepository.findByEmailStore decode e
          (StorageUtils.restoreBackup (StorageUtils.createBackup ts s)
            (StorageUtils.clearAllPrintConnectData s)) =
        UserRepository.findByEmailStore decode e s) := by
  have hpoint : ∀ k, LocalStorage.getItem k
      (StorageUtils.restoreBackup (StorageUtils.createBackup ts s)
        (StorageUtils.clearAllPrintConnectData s)) = LocalStorage.getItem k s := by
    intro k
    have hnd : ((StorageUtils.createBackup ts s).data.map Prod.fst).Nodup := by
      rw [createBackup_keys]
      exact List.Nodup.filter _ h
    unfold StorageUtils.restoreBackup
    rw [getItem_foldl_set _ _ _ hnd]
    cases hf : (StorageUtils.createBackup ts s).data.find? (fun kv => kv.1 == k) with
    | some kv =>
        have hm := List.mem_of_find?_eq_some hf
        have hp : kv.1 = k := by simpa using List.find?_some hf
        have hmem : (kv.1, kv.2) ∈ (StorageUtils.createBackup ts s).data := hm
        have hdata := (mem_createBackup_data ts s kv.1 kv.2).mp hmem
        rw [hp] at hdata
        rw [hdata.2]
    | none =>
        rw [getItem_clearAllPrintConnectData]
        by_cases hin : k ∈ StorageUtils.getPrintConnectKeys s
        · have hsome := getItem_isSome_of_mem_keys k s ((mem_getPrintConnectKeys s k).mp hin).1
          cases hv : LocalStorage.getItem k s with
          | none => rw [hv] at hsome; simp at hsome
          | some v =>
              have hmem : (k, v) ∈ (StorageUtils.createBackup ts s).data :=
                (mem_createBackup_data ts s k v).mpr ⟨hin, hv⟩
              have hfs : ((StorageUtils.createBackup ts s).data.find?
                  (fun kv => kv.1 == k)).isSome :=
                List.find?_isSome.mpr ⟨(k, v), hmem, by simp⟩
              rw [hf] at hfs
              simp at hfs
        · rw [if_neg hin]
  refine ⟨hpoint, ?_⟩
  intro decode e
  unfold UserRepository.findByEmailStore UserRepository.loadUsers
  rw [hpoint UserRepository.USERS_KEY]

/-- Concrete store for the C4 witness: one registered user list entry plus an
untagged key. -/
def roundtripWitnessStore : Store :=
  [("printconnect_users", "[[a@x.com]]"), ("other_key", "1")]

/-- Witness for C4 at a concrete two-entry store. -/
theorem backup_clear_restore_roundtrip_witness :
    LocalStorage.getItem "printconnect_users"
        (StorageUtils.restoreBackup (StorageUtils.createBackup "t" roundtripWitnessStore)
          (StorageUtils.clearAllPrintConnectData roundtripWitnessStore)) =
      LocalStorage.getItem "printconnect_users" roundtripWitnessStore :=
  (backup_clear_restore_roundtrip "t" roundtripWitnessStore (by decide)).1
    "printconnect_users"
